import Mathlib

/-!
# Verification of the MetaTFT match-tracker analytics core

A shallow embedding of `src/tools/tracker.ts` (the match-telemetry ingestion
and analytics engine) together with the name-resolution fallbacks of
`src/datadragon.ts`.  TypeScript values that the source treats as loosely
typed JSON are modelled with `Option`-valued fields; JavaScript objects used
as keyed records are modelled as insertion-ordered association lists
(`List (String × _)`), matching the insertion-order iteration the source
relies on (integer-like keys, which JavaScript would reorder, do not occur
for the champion/unit keys used here).  JavaScript `parseInt`, truthiness
(`||`, `if (x)`) and the stable `Array.prototype.sort` are modelled
explicitly below.  `NaN` is modelled as `Option.none` where it can arise.
-/

namespace Tracker

/-! ## JavaScript primitive semantics -/

/-- JavaScript `parseInt` digit-run helper: maximal leading run of decimal
digits, `none` when the run is empty (which is how `NaN` arises). -/
def parseDecRun (l : List Char) : Option Nat :=
  let ds := l.takeWhile Char.isDigit
  if ds.isEmpty then none
  else some (ds.foldl (fun a c => a * 10 + (c.toNat - 48)) 0)

/-- Hex digit run for the `0x`-prefixed case of `parseInt`. -/
def parseHexRun (l : List Char) : Option Nat :=
  let isHex : Char → Bool := fun c =>
    c.isDigit || ('a' ≤ c && c ≤ 'f') || ('A' ≤ c && c ≤ 'F')
  let val : Char → Nat := fun c =>
    if c.isDigit then c.toNat - 48
    else if 'a' ≤ c && c ≤ 'f' then c.toNat - 87
    else c.toNat - 55
  let ds := l.takeWhile isHex
  if ds.isEmpty then none
  else some (ds.foldl (fun a c => a * 16 + val c) 0)

/-- Unsigned part of `parseInt` (radix unspecified): decimal, or hex after a
`0x`/`0X` prefix. -/
def parseIntUnsigned : List Char → Option Nat
  | '0' :: 'x' :: rest => parseHexRun rest
  | '0' :: 'X' :: rest => parseHexRun rest
  | l => parseDecRun l

/-- Model of JavaScript `parseInt(s)` (no radix argument): skip leading
whitespace, optional sign, then a maximal decimal (or `0x`-hex) digit run;
`none` models `NaN`. -/
def jsParseInt (s : String) : Option Int :=
  let l := s.data.dropWhile Char.isWhitespace
  match l with
  | '-' :: rest => (parseIntUnsigned rest).map (fun n => -(n : Int))
  | '+' :: rest => (parseIntUnsigned rest).map (fun n => (n : Int))
  | _ => (parseIntUnsigned l).map (fun n => (n : Int))

/-- Model of `e || d` for a JavaScript number expression `e` that is either
`NaN` (`none`) or an integer: `NaN` and `0` are falsy and give `d`. -/
def jsOrInt (o : Option Int) (d : Int) : Int :=
  match o with
  | none => d
  | some n => if n = 0 then d else n

/-- Truthiness of an optional string: `undefined` and `""` are falsy. -/
def jsTruthyStr (o : Option String) : Bool :=
  match o with
  | none => false
  | some s => !(s == "")

/-- Truthiness of an optional integer-valued number: `undefined` and `0`
are falsy. -/
def jsTruthyInt (o : Option Int) : Bool :=
  match o with
  | none => false
  | some n => !(n == 0)

/-- Insert `a` into `l`, placing it before the first element `b` with
`le a b`.  Together with `jsStableSort` this models the (stable)
`Array.prototype.sort`. -/
def jsSortInsert (le : α → α → Bool) (a : α) : List α → List α
  | [] => [a]
  | b :: bs => if le a b then a :: b :: bs else b :: jsSortInsert le a bs

/-- Stable insertion sort: the model of JavaScript's stable
`Array.prototype.sort` with a boolean "may come before" relation. -/
def jsStableSort (le : α → α → Bool) : List α → List α
  | [] => []
  | a :: as => jsSortInsert le a (jsStableSort le as)

/-- `arr.sort(cmp)` with a numeric comparator: `a` may come before `b`
exactly when `cmp a b ≤ 0`, ties keep their original order. -/
def jsSortBy (cmp : α → α → Int) (l : List α) : List α :=
  jsStableSort (fun a b => cmp a b ≤ 0) l

/-- Is `needle` a contiguous sublist of `hay`? -/
def listContainsSub (needle : List Char) : List Char → Bool
  | [] => needle.isEmpty
  | c :: rest => needle.isPrefixOf (c :: rest) || listContainsSub needle rest

/-- Model of `hay.includes(needle)` on strings. -/
def strIncludes (hay needle : String) : Bool :=
  listContainsSub needle.data hay.data

/-- `Math.round(t / c)` for integer `t` and positive integer `c`
(round half toward positive infinity), as used for average damage. -/
def jsRoundDiv (t : Int) (c : Int) : Int :=
  (2 * t + c) / (2 * c)

/-! ## Name resolution (`src/datadragon.ts`)

The champion/item caches are populated once at process start from a network
source; the core reads them as pure lookups.  They are modelled as an
explicit environment record together with the `getArgs()` game name and the
(locale-fixed) timestamp formatter used in one error path. -/

structure Env where
  /-- `championsCache`: lowercased apiName → display name. -/
  champions : List (String × String)
  /-- `itemsCache`: lowercased apiName → display name. -/
  items : List (String × String)
  /-- `getArgs().gameName`. -/
  gameName : String
  /-- `new Date(ts).toLocaleString()` for the process's fixed locale. -/
  formatTimestamp : Int → String

/-- `Map.get` over the modelled cache. -/
def cacheLookup (cache : List (String × String)) (key : String) : Option String :=
  (cache.find? (fun p => p.1 == key)).map (fun p => p.2)

/-- Match of the regex `TFT\d+_(.+)` at the start of `l`: literal `TFT`,
one or more digits, `_`, then a nonempty remainder (the capture group,
which greedily extends to the end of the string). -/
def tftNumMatchAt : List Char → Option String
  | 'T' :: 'F' :: 'T' :: rest =>
    let ds := rest.takeWhile Char.isDigit
    if ds.isEmpty then none
    else
      match rest.drop ds.length with
      | '_' :: c :: tail => some (String.mk (c :: tail))
      | _ => none
  | _ => none

/-- First match of `TFT\d+_(.+)` anywhere in the string (the regex is
unanchored; earlier start positions win). -/
def tftNumMatch : List Char → Option String
  | [] => none
  | c :: rest =>
    match tftNumMatchAt (c :: rest) with
    | some r => some r
    | none => tftNumMatch rest

/-- Match of the regex `TFT_Item_(.+)` at the start of `l`. -/
def tftItemMatchAt : List Char → Option String
  | 'T' :: 'F' :: 'T' :: '_' :: 'I' :: 't' :: 'e' :: 'm' :: '_' :: c :: tail =>
    some (String.mk (c :: tail))
  | _ => none

/-- First match of `TFT_Item_(.+)` anywhere in the string. -/
def tftItemMatch : List Char → Option String
  | [] => none
  | c :: rest =>
    match tftItemMatchAt (c :: rest) with
    | some r => some r
    | none => tftItemMatch rest

/-- `.replace(/([A-Z])/g, ' $1')`: a space inserted before every ASCII
uppercase letter. -/
def camelSpace (s : String) : String :=
  String.mk (s.data.foldr (fun c acc => if c.isUpper then ' ' :: c :: acc else c :: acc) [])

/-- `getChampionName` from `src/datadragon.ts`: cache lookup on the
lowercased id, falling back to the capture of `TFT\d+_(.+)`, else the raw
id. -/
def getChampionName (env : Env) (apiName : String) : String :=
  match cacheLookup env.champions apiName.toLower with
  | some n => n
  | none =>
    match tftNumMatch apiName.data with
    | some rest => rest
    | none => apiName

/-- `getItemName` from `src/datadragon.ts`: cache lookup on the lowercased
id, falling back to the camel-case-spaced capture of `TFT_Item_(.+)`,
else the raw id. -/
def getItemName (env : Env) (apiName : String) : String :=
  match cacheLookup env.items apiName.toLower with
  | some n => n
  | none =>
    match tftItemMatch apiName.data with
    | some rest => (camelSpace rest).trim
    | none => apiName

/-! ## Raw tracker data model (`TrackerStage` and friends)

Fields that the TypeScript interfaces mark optional — plus the string
fields the tracker payload may omit despite the interface — are `Option`s.
Fields the tracker code never reads (`augments`, `repositions`,
`num_completed_items`, `xp.current_xp`, `xp.xp_max`, `rank`,
`summoner_name`, `native_name`, `item_select`, `round_outcome.tag_line`,
roster `rank`/`tag_line` beyond what is read, `match_metrics`, `queue_id`)
are omitted from the model where they are provably unread. -/

structure BoardPiece where
  name : String
  level : Option String
  item_1 : Option String
  item_2 : Option String
  item_3 : Option String
deriving DecidableEq, Repr

/-- `extractItems` from `src/tools/tracker.ts`: push each of the up to three
item slots when truthy (present and nonempty). -/
def extractItems (piece : BoardPiece) : List String :=
  (if jsTruthyStr piece.item_1 then [piece.item_1.getD ""] else []) ++
  (if jsTruthyStr piece.item_2 then [piece.item_2.getD ""] else []) ++
  (if jsTruthyStr piece.item_3 then [piece.item_3.getD ""] else [])

structure UnitDamage where
  name : String
  damage : Option Int
  level : Int
deriving DecidableEq, Repr

structure RoundType where
  stage : Option String
  name : Option String
  type : Option String
deriving DecidableEq, Repr

structure XpInfo where
  level : Int
deriving DecidableEq, Repr

structure MeInfo where
  health : Option String
  gold : Option String
  xp : Option XpInfo
deriving DecidableEq, Repr

structure PlayerStatus where
  health : Int
  xp : Int
  tag_line : Option String
deriving DecidableEq, Repr

structure Opponent where
  name : String
  tag_line : String
deriving DecidableEq, Repr

structure OutcomeEntry where
  outcome : String
deriving DecidableEq, Repr

structure MatchInfo where
  round_type : Option RoundType
  round_outcome : Option (List (String × OutcomeEntry))
  opponent : Option Opponent
deriving DecidableEq, Repr

structure DamageHolder where
  units : Option (List (String × UnitDamage))
deriving DecidableEq, Repr

structure Metrics where
  board_strength : Option Int
  board_cost : Option Int
  bench_cost : Option Int
deriving DecidableEq, Repr

structure ShopEntry where
  name : String
deriving DecidableEq, Repr

structure Shop where
  shop_pieces : Option (List (String × ShopEntry))
deriving DecidableEq, Repr

structure BoardHolder where
  board_pieces : Option (List (String × BoardPiece))
deriving DecidableEq, Repr

structure BenchHolder where
  bench_pieces : Option (List (String × BoardPiece))
deriving DecidableEq, Repr

structure RosterHolder where
  player_status : Option (List (String × PlayerStatus))
deriving DecidableEq, Repr

structure TrackerStage where
  board : Option BoardHolder
  bench : Option BenchHolder
  me : Option MeInfo
  roster : Option RosterHolder
  match_info : Option MatchInfo
  local_player_damage : Option DamageHolder
  gold_earned : Option Int
  rerolls : Option Int
  metrics : Option Metrics
  shops : Option (List Shop)
deriving DecidableEq, Repr

/-- A stage record with every field absent. -/
def emptyStage : TrackerStage :=
  ⟨none, none, none, none, none, none, none, none, none, none⟩

/-! ## Stage normalization (`formatStageData`) -/

structure FormattedPiece where
  champion : String
  stars : Int
  items : List String
deriving DecidableEq, Repr

structure FormattedBenchPiece where
  champion : String
  stars : Int
deriving DecidableEq, Repr

structure PlayerBlock where
  health : Int
  gold : Int
  level : Int
deriving DecidableEq, Repr

structure FormattedDamage where
  champion : String
  damage : Option Int
  stars : Int
deriving DecidableEq, Repr

structure PlayerHp where
  name : String
  health : Int
  level : Int
deriving DecidableEq, Repr

structure FormattedMetrics where
  boardStrength : Option Int
  boardCost : Option Int
  benchCost : Option Int
deriving DecidableEq, Repr

/-- The loosely shaped `formatted` object built by `formatStageData`;
fields the source conditionally assigns are `Option`s (`none` = key never
set, hence absent from the serialized JSON). -/
structure FormattedStage where
  stageNumber : Int
  stage : Option String
  roundType : Option String
  roundName : Option String
  opponent : Option String
  player : Option PlayerBlock
  goldEarned : Option Int
  rerolls : Option Int
  board : Option (List FormattedPiece)
  bench : Option (List FormattedBenchPiece)
  unitDamage : Option (List FormattedDamage)
  allPlayers : Option (List PlayerHp)
  shop : Option (List String)
  metrics : Option FormattedMetrics
deriving DecidableEq, Repr

/-- `stages[i]` for a JavaScript (possibly negative or out-of-range) index:
`undefined` is `none`. -/
def listGetInt (l : List α) (i : Int) : Option α :=
  if 0 ≤ i ∧ i < l.length then l.get? i.toNat else none

/-- The board-piece mapping inline in `formatStageData` (lines 222–226) and
repeated verbatim for the final board in `handleTftMatchTracker`
(lines 462–466). -/
def formatBoardPiece (env : Env) (u : BoardPiece) : FormattedPiece :=
  { champion := getChampionName env u.name
    stars := jsOrInt (u.level.bind jsParseInt) 1
    items := (extractItems u).map (getItemName env) }

/-- The bench-piece mapping inline in `formatStageData` (lines 234–237). -/
def formatBenchPiece (env : Env) (u : BoardPiece) : FormattedBenchPiece :=
  { champion := getChampionName env u.name
    stars := jsOrInt (u.level.bind jsParseInt) 1 }

/-- `u.damage && u.damage > 0`. -/
def damagePos (u : UnitDamage) : Bool :=
  match u.damage with
  | some d => decide (d > 0)
  | none => false

/-- `formatStageData` from `src/tools/tracker.ts`: `null` (`none`) for an
out-of-range index, otherwise the defensive per-stage snapshot. -/
def formatStageData (env : Env) (stages : List TrackerStage) (stageIndex : Int) :
    Option FormattedStage :=
  match listGetInt stages stageIndex with
  | none => none
  | some stage =>
    some {
      stageNumber := stageIndex + 1
      stage := (stage.match_info.bind (fun mi => mi.round_type)).bind (fun rt => rt.stage)
      roundType := (stage.match_info.bind (fun mi => mi.round_type)).bind (fun rt => rt.type)
      roundName := (stage.match_info.bind (fun mi => mi.round_type)).bind (fun rt => rt.name)
      opponent := (stage.match_info.bind (fun mi => mi.opponent)).map
        (fun o => o.name ++ "#" ++ o.tag_line)
      player := stage.me.map (fun me =>
        { health := jsOrInt (me.health.bind jsParseInt) 0
          gold := jsOrInt (me.gold.bind jsParseInt) 0
          level := jsOrInt (me.xp.map (fun x => x.level)) 0 })
      goldEarned := stage.gold_earned
      rerolls := stage.rerolls
      board :=
        match stage.board.bind (fun b => b.board_pieces) with
        | some pieces =>
          if pieces.length > 0 then
            some ((pieces.map (fun p => p.2)).map (formatBoardPiece env))
          else none
        | none => none
      bench :=
        match stage.bench.bind (fun b => b.bench_pieces) with
        | some pieces =>
          if pieces.length > 0 then
            some ((pieces.map (fun p => p.2)).map (formatBenchPiece env))
          else none
        | none => none
      unitDamage :=
        match stage.local_player_damage.bind (fun d => d.units) with
        | some unitsRec =>
          let units := jsSortBy (fun a b => jsOrInt b.damage 0 - jsOrInt a.damage 0)
            ((unitsRec.map (fun p => p.2)).filter damagePos)
          if units.length > 0 then
            some (units.map (fun u =>
              { champion := getChampionName env u.name
                damage := u.damage
                stars := u.level }))
          else none
        | none => none
      allPlayers :=
        match stage.roster.bind (fun r => r.player_status) with
        | some entries =>
          some (jsSortBy (fun a b => b.health - a.health)
            (entries.map (fun e =>
              { name := if jsTruthyStr e.2.tag_line then
                  e.1 ++ "#" ++ e.2.tag_line.getD ""
                else e.1
                health := e.2.health
                level := e.2.xp })))
        | none => none
      shop :=
        match stage.shops with
        | some shops =>
          if shops.length > 0 then
            match shops.getLast?.bind (fun s => s.shop_pieces) with
            | some sp => some ((sp.map (fun p => p.2)).map
                (fun s => getChampionName env s.name))
            | none => none
          else none
        | none => none
      metrics := stage.metrics.map (fun m =>
        { boardStrength := m.board_strength
          boardCost := m.board_cost
          benchCost := m.bench_cost }) }

/-! ## Timeline aggregation (`formatAllStages`) -/

/-- One compact per-round summary row; conditionally assigned keys are
`Option`s. -/
structure RoundSummary where
  round : Int
  stage : Option String
  type : Option String
  hp : Option Int
  gold : Option Int
  level : Option Int
  boardSize : Option Int
  income : Option Int
  rerolls : Option Int
  outcome : Option String
deriving DecidableEq, Repr

/-- The per-stage body of `formatAllStages`. -/
def formatStageSummary (env : Env) (idx : Nat) (stage : TrackerStage) : RoundSummary :=
  { round := (idx : Int) + 1
    stage := (stage.match_info.bind (fun mi => mi.round_type)).bind (fun rt => rt.stage)
    type := (stage.match_info.bind (fun mi => mi.round_type)).bind (fun rt => rt.type)
    hp := stage.me.map (fun me => jsOrInt (me.health.bind jsParseInt) 0)
    gold := stage.me.map (fun me => jsOrInt (me.gold.bind jsParseInt) 0)
    level := stage.me.map (fun me => jsOrInt (me.xp.map (fun x => x.level)) 0)
    boardSize := (stage.board.bind (fun b => b.board_pieces)).map
      (fun pieces => (pieces.length : Int))
    income := stage.gold_earned
    rerolls :=
      match stage.rerolls with
      | some r => if r > 0 then some r else none
      | none => none
    outcome :=
      match stage.match_info.bind (fun mi => mi.round_outcome) with
      | some outcomes =>
        ((outcomes.find? (fun e => strIncludes e.1.toLower env.gameName.toLower)).map
          (fun e => e.2.outcome))
      | none => none }

/-- `formatAllStages` from `src/tools/tracker.ts`. -/
def formatAllStages (env : Env) (stages : List TrackerStage) : List RoundSummary :=
  stages.enum.map (fun p => formatStageSummary env p.1 p.2)

/-! ## Key-stage selection (`findKeyProgressionStages`) -/

/-- The canonical decision-point round labels. -/
def keyRounds : List String := ["2-1", "3-2", "4-2", "5-1", "6-1"]

/-- `stages[i].match_info?.round_type?.stage`. -/
def stageLabelOf (st : TrackerStage) : Option String :=
  (st.match_info.bind (fun mi => mi.round_type)).bind (fun rt => rt.stage)

/-- The scanning loop of `findKeyProgressionStages`: `i` is the index of the
head of the remaining list, `found` the set of labels already selected. -/
def scanKeyStages : List TrackerStage → Nat → List String → List Int
  | [], _, _ => []
  | st :: rest, i, found =>
    match stageLabelOf st with
    | some l =>
      if !(l == "") && keyRounds.contains l && !(found.contains l) then
        (i : Int) :: scanKeyStages rest (i + 1) (l :: found)
      else
        scanKeyStages rest (i + 1) found
    | none => scanKeyStages rest (i + 1) found

/-- `findKeyProgressionStages` from `src/tools/tracker.ts`: the scan above,
plus `stages.length - 1` appended when the scan is empty or does not already
end in it. -/
def findKeyProgressionStages (stages : List TrackerStage) : List Int :=
  if (scanKeyStages stages 0 []).isEmpty
      || !((scanKeyStages stages 0 []).getLast? == some ((stages.length : Int) - 1)) then
    scanKeyStages stages 0 [] ++ [(stages.length : Int) - 1]
  else
    scanKeyStages stages 0 []

/-! ## Carry analytics (`calculateCarryStats`) -/

structure CarryAcc where
  total : Int
  count : Int
  maxStars : Int
deriving DecidableEq, Repr

structure CarryEntry where
  champion : String
  totalDamage : Int
  avgDamage : Int
  roundsPlayed : Int
  maxStars : Int
deriving DecidableEq, Repr

/-- In-place update of an insertion-ordered record: existing keys keep
their position, new keys are appended (JavaScript object semantics for the
non-integer-like keys in play). -/
def recUpdate (k : String) (f : Option CarryAcc → CarryAcc) :
    List (String × CarryAcc) → List (String × CarryAcc)
  | [] => [(k, f none)]
  | (k', v) :: rest =>
    if k' == k then (k', f (some v)) :: rest else (k', v) :: recUpdate k f rest

/-- One positive-damage record folded into `damageByUnit`. -/
def carryStep (name : String) (d : Int) (lvl : Int)
    (acc : List (String × CarryAcc)) : List (String × CarryAcc) :=
  recUpdate name (fun old =>
    let s := old.getD ⟨0, 0, 0⟩
    ⟨s.total + d, s.count + 1, max s.maxStars lvl⟩) acc

/-- The accumulation loop of `calculateCarryStats` over all stages. -/
def carryFold (env : Env) (stages : List TrackerStage) : List (String × CarryAcc) :=
  stages.foldl (fun acc stage =>
    match stage.local_player_damage.bind (fun d => d.units) with
    | some unitsRec =>
      unitsRec.foldl (fun acc p =>
        if damagePos p.2 then
          carryStep (getChampionName env p.2.name) (p.2.damage.getD 0) p.2.level acc
        else acc) acc
    | none => acc) []

/-- The per-unit derivation step of `calculateCarryStats`. -/
def carryEntryOf (p : String × CarryAcc) : CarryEntry :=
  { champion := p.1
    totalDamage := p.2.total
    avgDamage := jsRoundDiv p.2.total p.2.count
    roundsPlayed := p.2.count
    maxStars := p.2.maxStars }

/-- `calculateCarryStats` from `src/tools/tracker.ts`. -/
def calculateCarryStats (env : Env) (stages : List TrackerStage) : List CarryEntry :=
  jsSortBy (fun a b => b.totalDamage - a.totalDamage)
    ((carryFold env stages).map carryEntryOf)

/-! ## JSON decoding of `stage_data`

`JSON.parse` is modelled by an executable recursive-descent parser over a
JSON value type, restricted to the fragment the tracker payload inhabits:
integer numbers (no fractions/exponents) and the simple string escapes.
Shape conversion into `TrackerStage` models the (unchecked) TypeScript cast;
a `null` field value behaves like an absent field, as it does under the
source's `?.`/truthiness accesses. -/

inductive Json where
  | null
  | bool (b : Bool)
  | num (n : Int)
  | str (s : String)
  | arr (elems : List Json)
  | obj (fields : List (String × Json))
deriving Repr

def skipWs (l : List Char) : List Char := l.dropWhile Char.isWhitespace

/-- Parse the body of a string literal after its opening quote; returns the
content and the remainder after the closing quote. -/
def parseStringBody : List Char → Option (List Char × List Char)
  | [] => none
  | '"' :: rest => some ([], rest)
  | '\\' :: c :: rest =>
    let esc : Option Char :=
      match c with
      | '"' => some '"'
      | '\\' => some '\\'
      | '/' => some '/'
      | 'n' => some '\n'
      | 't' => some '\t'
      | 'r' => some '\r'
      | _ => none
    match esc with
    | some e => (parseStringBody rest).map (fun p => (e :: p.1, p.2))
    | none => none
  | ['\\'] => none
  | c :: rest => (parseStringBody rest).map (fun p => (c :: p.1, p.2))

def natOfDigits (ds : List Char) : Nat :=
  ds.foldl (fun a c => a * 10 + (c.toNat - 48)) 0

/-- Integer JSON number (optionally negative); fractions and exponents are
outside the modelled fragment and fail. -/
def parseJsonNum (l : List Char) : Option (Int × List Char) :=
  let core : List Char → Option (Nat × List Char) := fun l' =>
    let ds := l'.takeWhile Char.isDigit
    if ds.isEmpty then none
    else
      match l'.drop ds.length with
      | '.' :: _ => none
      | 'e' :: _ => none
      | 'E' :: _ => none
      | r => some (natOfDigits ds, r)
  match l with
  | '-' :: rest => (core rest).map (fun p => (-(p.1 : Int), p.2))
  | _ => (core l).map (fun p => ((p.1 : Int), p.2))

/-- Comma-separated array elements up to the closing bracket, with the
element parser passed in and a fuel bound for the loop. -/
def parseElems (pv : List Char → Option (Json × List Char)) :
    Nat → List Char → Option (List Json × List Char)
  | 0, _ => none
  | n + 1, input =>
    match pv input with
    | some (j, rest) =>
      match skipWs rest with
      | ',' :: r2 => (parseElems pv n r2).map (fun p => (j :: p.1, p.2))
      | ']' :: r2 => some ([j], r2)
      | _ => none
    | none => none

/-- Comma-separated object members up to the closing brace. -/
def parseMembers (pv : List Char → Option (Json × List Char)) :
    Nat → List Char → Option (List (String × Json) × List Char)
  | 0, _ => none
  | n + 1, input =>
    match skipWs input with
    | '"' :: rest =>
      match parseStringBody rest with
      | some (cs, r1) =>
        match skipWs r1 with
        | ':' :: r2 =>
          match pv r2 with
          | some (j, r3) =>
            match skipWs r3 with
            | ',' :: r4 =>
              (parseMembers pv n r4).map (fun p => ((String.mk cs, j) :: p.1, p.2))
            | '\x7d' :: r4 => some ([(String.mk cs, j)], r4)
            | _ => none
          | none => none
        | _ => none
      | none => none
    | _ => none

/-- One JSON value (with fuel); returns the value and the unconsumed
remainder. -/
def parseJsonVal : Nat → List Char → Option (Json × List Char)
  | 0, _ => none
  | fuel + 1, input =>
    match skipWs input with
    | [] => none
    | '"' :: rest => (parseStringBody rest).map (fun p => (Json.str (String.mk p.1), p.2))
    | '[' :: rest =>
      match skipWs rest with
      | ']' :: r2 => some (Json.arr [], r2)
      | _ => (parseElems (parseJsonVal fuel) (fuel + 1) rest).map
          (fun p => (Json.arr p.1, p.2))
    | '\x7b' :: rest =>
      match skipWs rest with
      | '\x7d' :: r2 => some (Json.obj [], r2)
      | _ => (parseMembers (parseJsonVal fuel) (fuel + 1) rest).map
          (fun p => (Json.obj p.1, p.2))
    | 't' :: 'r' :: 'u' :: 'e' :: rest => some (Json.bool true, rest)
    | 'f' :: 'a' :: 'l' :: 's' :: 'e' :: rest => some (Json.bool false, rest)
    | 'n' :: 'u' :: 'l' :: 'l' :: rest => some (Json.null, rest)
    | l => (parseJsonNum l).map (fun p => (Json.num p.1, p.2))

/-- `JSON.parse` on the modelled fragment: the whole input must be one JSON
value (plus surrounding whitespace). -/
def jsonParse (s : String) : Option Json :=
  match parseJsonVal (s.length + 1) s.data with
  | some (j, rest) => if (skipWs rest).isEmpty then some j else none
  | none => none

def objGet (fields : List (String × Json)) (k : String) : Option Json :=
  (fields.find? (fun p => p.1 == k)).map (fun p => p.2)

def asString : Json → Option String
  | .str s => some s
  | _ => none

def asInt : Json → Option Int
  | .num n => some n
  | _ => none

def asObj : Json → Option (List (String × Json))
  | .obj fields => some fields
  | _ => none

/-- An optional field: absent or `null` yields `some none`; present with the
wrong shape fails (outside the valid-envelope fragment). -/
def optField (fields : List (String × Json)) (k : String)
    (conv : Json → Option α) : Option (Option α) :=
  match objGet fields k with
  | none => some none
  | some Json.null => some none
  | some j => (conv j).map some

/-- A required field. -/
def reqField (fields : List (String × Json)) (k : String)
    (conv : Json → Option α) : Option α :=
  (objGet fields k).bind conv

/-- A keyed record (`Record<string, T>`) as an insertion-ordered list. -/
def recordOf (conv : Json → Option α) (j : Json) : Option (List (String × α)) :=
  match j with
  | .obj fields => fields.mapM (fun p => (conv p.2).map (fun v => (p.1, v)))
  | _ => none

def boardPieceOfJson (j : Json) : Option BoardPiece := do
  let f ← asObj j
  let name ← reqField f "name" asString
  let level ← optField f "level" asString
  let i1 ← optField f "item_1" asString
  let i2 ← optField f "item_2" asString
  let i3 ← optField f "item_3" asString
  pure ⟨name, level, i1, i2, i3⟩

def unitDamageOfJson (j : Json) : Option UnitDamage := do
  let f ← asObj j
  let name ← reqField f "name" asString
  let damage ← optField f "damage" asInt
  let level ← reqField f "level" asInt
  pure ⟨name, damage, level⟩

def roundTypeOfJson (j : Json) : Option RoundType := do
  let f ← asObj j
  let stage ← optField f "stage" asString
  let name ← optField f "name" asString
  let type ← optField f "type" asString
  pure ⟨stage, name, type⟩

def xpInfoOfJson (j : Json) : Option XpInfo := do
  let f ← asObj j
  let level ← reqField f "level" asInt
  pure ⟨level⟩

def meInfoOfJson (j : Json) : Option MeInfo := do
  let f ← asObj j
  let health ← optField f "health" asString
  let gold ← optField f "gold" asString
  let xp ← optField f "xp" xpInfoOfJson
  pure ⟨health, gold, xp⟩

def playerStatusOfJson (j : Json) : Option PlayerStatus := do
  let f ← asObj j
  let health ← reqField f "health" asInt
  let xp ← reqField f "xp" asInt
  let tag ← optField f "tag_line" asString
  pure ⟨health, xp, tag⟩

def opponentOfJson (j : Json) : Option Opponent := do
  let f ← asObj j
  let name ← reqField f "name" asString
  let tag ← reqField f "tag_line" asString
  pure ⟨name, tag⟩

def outcomeEntryOfJson (j : Json) : Option OutcomeEntry := do
  let f ← asObj j
  let outcome ← reqField f "outcome" asString
  pure ⟨outcome⟩

def matchInfoOfJson (j : Json) : Option MatchInfo := do
  let f ← asObj j
  let rt ← optField f "round_type" roundTypeOfJson
  let ro ← optField f "round_outcome" (recordOf outcomeEntryOfJson)
  let op ← optField f "opponent" opponentOfJson
  pure ⟨rt, ro, op⟩

def damageHolderOfJson (j : Json) : Option DamageHolder := do
  let f ← asObj j
  let units ← optField f "units" (recordOf unitDamageOfJson)
  pure ⟨units⟩

def metricsOfJson (j : Json) : Option Metrics := do
  let f ← asObj j
  let bs ← optField f "board_strength" asInt
  let bc ← optField f "board_cost" asInt
  let bec ← optField f "bench_cost" asInt
  pure ⟨bs, bc, bec⟩

def shopEntryOfJson (j : Json) : Option ShopEntry := do
  let f ← asObj j
  let name ← reqField f "name" asString
  pure ⟨name⟩

def shopOfJson (j : Json) : Option Shop := do
  let f ← asObj j
  let sp ← optField f "shop_pieces" (recordOf shopEntryOfJson)
  pure ⟨sp⟩

def boardHolderOfJson (j : Json) : Option BoardHolder := do
  let f ← asObj j
  let bp ← optField f "board_pieces" (recordOf boardPieceOfJson)
  pure ⟨bp⟩

def benchHolderOfJson (j : Json) : Option BenchHolder := do
  let f ← asObj j
  let bp ← optField f "bench_pieces" (recordOf boardPieceOfJson)
  pure ⟨bp⟩

def rosterHolderOfJson (j : Json) : Option RosterHolder := do
  let f ← asObj j
  let ps ← optField f "player_status" (recordOf playerStatusOfJson)
  pure ⟨ps⟩

def shopsOfJson (j : Json) : Option (List Shop) :=
  match j with
  | .arr l => l.mapM shopOfJson
  | _ => none

def trackerStageOfJson (j : Json) : Option TrackerStage := do
  let f ← asObj j
  let board ← optField f "board" boardHolderOfJson
  let bench ← optField f "bench" benchHolderOfJson
  let me ← optField f "me" meInfoOfJson
  let roster ← optField f "roster" rosterHolderOfJson
  let mi ← optField f "match_info" matchInfoOfJson
  let lpd ← optField f "local_player_damage" damageHolderOfJson
  let ge ← optField f "gold_earned" asInt
  let rr ← optField f "rerolls" asInt
  let me2 ← optField f "metrics" metricsOfJson
  let shops ← optField f "shops" shopsOfJson
  pure ⟨board, bench, me, roster, mi, lpd, ge, rr, me2, shops⟩

def stagesOfJson : Json → Option (List TrackerStage)
  | .arr l => l.mapM trackerStageOfJson
  | _ => none

/-- `JSON.parse(stage_data)` followed by the (unchecked) cast to
`TrackerStage[]`: succeeds exactly when the string is a JSON array of stage
records in the modelled fragment. -/
def parseStages (s : String) : Option (List TrackerStage) :=
  (jsonParse s).bind stagesOfJson

/-! ## The `handleTftMatchTracker` pipeline -/

/-- Result of an awaited collaborator call (network fetch, or the decode
step): a value, or a thrown error caught by the handler's `try/catch`. -/
inductive Fetch (α : Type) where
  | ok (val : α)
  | threw (msg : String)
deriving DecidableEq, Repr

/-- One entry of `profile.app_matches` (`player_id` and `match_data_url`
are never read by the handler and are omitted). -/
structure AppMatch where
  uuid : String
  match_id_ow : String
  created_timestamp : Int
deriving DecidableEq, Repr

structure ProfileResponse where
  app_matches : Option (List AppMatch)
deriving DecidableEq, Repr

/-- `stage_data` as it arrives inside the fetched envelope: either a JSON
string or (already decoded upstream) an array. -/
inductive StageDataField where
  | str (s : String)
  | arr (stages : List TrackerStage)
deriving DecidableEq, Repr

/-- The envelope fields the handler reads (`match_id`, `uuid`,
`queue_id`, `match_metrics` are never read and are omitted). -/
structure TrackerData where
  server : String
  summoner_name : String
  stage_data : StageDataField
  portal : Option String
  summoner_tier : Option String
  tft_set_core_name : Option String
deriving DecidableEq, Repr

/-- The handler's parameter object.  The TypeScript type restricts `mode`
to `"summary" | "complete"`, but at runtime any string may arrive; absence
is `none`. -/
structure ToolParams where
  matchId : String
  mode : Option String
deriving DecidableEq, Repr

structure AvailableMatch where
  matchId : String
  date : String
deriving DecidableEq, Repr

/-- The `summary` block of the assembled result; `none` models `NaN`
(serialized as `null`) from an unguarded `parseInt`. -/
structure SummaryBlock where
  startingHealth : Option Int
  finalHealth : Option Int
  finalGold : Option Int
  totalRerolls : Int
  totalIncome : Int
deriving DecidableEq, Repr

structure TrackerResult where
  matchId : String
  trackerUuid : String
  server : String
  summonerName : String
  mode : String
  portal : Option String
  rank : Option String
  set : Option String
  totalRounds : Nat
  summary : SummaryBlock
  topCarries : List CarryEntry
  finalBoard : List FormattedPiece
  stageProgression : List (Option FormattedStage)
  roundProgression : Option (List RoundSummary)
deriving DecidableEq, Repr

/-- The one `{type:"text", text: JSON.stringify(...)}` content item, at the
structured level (`JSON.stringify` with fixed indentation is deterministic
and injective across these shapes). -/
inductive Payload where
  | success (result : TrackerResult)
  | noTrackerData
  | noMatchFound (matchId : String) (available : List AvailableMatch)
  | thrownError (msg : String)
deriving DecidableEq, Repr

structure ToolResult where
  content : List Payload
  isError : Bool
deriving DecidableEq, Repr

/-- `matchId.replace(/^[A-Z]+\d*_/, "")`: strip one leading run of ASCII
uppercase letters, then a digit run, then an underscore; no match leaves
the id unchanged. -/
def matchNumberOf (matchId : String) : String :=
  let l := matchId.data
  let ups := l.takeWhile (fun c => 'A' ≤ c && c ≤ 'Z')
  if ups.isEmpty then matchId
  else
    let rest1 := l.drop ups.length
    let ds := rest1.takeWhile Char.isDigit
    match rest1.drop ds.length with
    | '_' :: tail => String.mk tail
    | _ => matchId

/-- The stage-array decode (tracker.ts lines 444–451).  A string field is
`JSON.parse`d; if that fails the `catch` leaves the raw string behind and
the later `stages.map` throws (modelled as `threw`).  An array field makes
`JSON.parse` throw on the coerced text of an array of objects, so the
`catch` uses the array as-is. -/
def decodeStageData : StageDataField → Fetch (List TrackerStage)
  | .arr stages => .ok stages
  | .str s =>
    match parseStages s with
    | some stages => .ok stages
    | none => .threw "stages.map is not a function"

/-- `if (stage.rerolls) totalRerolls += stage.rerolls` folded over all
stages. -/
def totalRerollsOf (stages : List TrackerStage) : Int :=
  stages.foldl (fun acc st =>
    if jsTruthyInt st.rerolls then acc + st.rerolls.getD 0 else acc) 0

/-- `if (stage.gold_earned) totalIncome += stage.gold_earned` folded over
all stages. -/
def totalIncomeOf (stages : List TrackerStage) : Int :=
  stages.foldl (fun acc st =>
    if jsTruthyInt st.gold_earned then acc + st.gold_earned.getD 0 else acc) 0

/-- String truthiness default: `x || d` where `x` is an optional string
(absent and `""` are falsy). -/
def strOrElse (o : Option String) (d : String) : String :=
  match o with
  | some s => if s == "" then d else s
  | none => d

/-- `parseInt(firstStage?.me?.health || "100")`. -/
def summaryStartingHealth (stages : List TrackerStage) : Option Int :=
  jsParseInt (strOrElse ((stages.head?.bind (fun st => st.me)).bind (fun me => me.health)) "100")

/-- `parseInt(lastStage?.me?.health || "0")`. -/
def summaryFinalHealth (stages : List TrackerStage) : Option Int :=
  jsParseInt (strOrElse ((stages.getLast?.bind (fun st => st.me)).bind (fun me => me.health)) "0")

/-- `parseInt(lastStage?.me?.gold || "0")`. -/
def summaryFinalGold (stages : List TrackerStage) : Option Int :=
  jsParseInt (strOrElse ((stages.getLast?.bind (fun st => st.me)).bind (fun me => me.gold)) "0")

/-- The final board: the last stage's board pieces mapped through the same
champion/star/item resolution as `formatStageData`, `[]` when absent. -/
def finalBoardOf (env : Env) (stages : List TrackerStage) : List FormattedPiece :=
  match (stages.getLast?.bind (fun st => st.board)).bind (fun b => b.board_pieces) with
  | some pieces => (pieces.map (fun p => p.2)).map (formatBoardPiece env)
  | none => []

/-- The result object assembled by `handleTftMatchTracker` on the success
path, as a function of the (already defaulted) `mode`. -/
def assembleResult (env : Env) (matchId : String) (mode : String)
    (appMatch : AppMatch) (td : TrackerData) (stages : List TrackerStage) :
    TrackerResult :=
  { matchId := matchId
    trackerUuid := appMatch.uuid
    server := td.server
    summonerName := td.summoner_name
    mode := mode
    portal := td.portal
    rank := td.summoner_tier
    set := td.tft_set_core_name
    totalRounds := stages.length
    summary :=
      { startingHealth := summaryStartingHealth stages
        finalHealth := summaryFinalHealth stages
        finalGold := summaryFinalGold stages
        totalRerolls := totalRerollsOf stages
        totalIncome := totalIncomeOf stages }
    topCarries := (calculateCarryStats env stages).take 5
    finalBoard := finalBoardOf env stages
    stageProgression :=
      if mode == "complete" then
        stages.enum.map (fun p => formatStageData env stages (p.1 : Int))
      else
        (findKeyProgressionStages stages).map (fun idx => formatStageData env stages idx)
    roundProgression :=
      if mode == "summary" then some (formatAllStages env stages) else none }

def errResult (msg : String) : ToolResult :=
  { content := [Payload.thrownError msg], isError := true }

def noTrackerResult : ToolResult :=
  { content := [Payload.noTrackerData], isError := true }

/-- The body of `handleTftMatchTracker` after parameter destructuring:
`mode` is the already-defaulted mode string; the two awaited fetches are
inputs (the tracker fetch is only reached — hence only inspected — once an
`appMatch` is found). -/
def handleCore (env : Env) (matchId : String) (mode : String)
    (profile : Fetch ProfileResponse) (tracker : Fetch TrackerData) : ToolResult :=
  match profile with
  | .threw e => errResult e
  | .ok prof =>
    match prof.app_matches with
    | none => noTrackerResult
    | some ams =>
      if ams.isEmpty then noTrackerResult
      else
        match ams.find? (fun m => m.match_id_ow == matchNumberOf matchId) with
        | none =>
          { content := [Payload.noMatchFound matchId
              ((ams.map (fun m =>
                ({ matchId := m.match_id_ow
                   date := env.formatTimestamp m.created_timestamp } : AvailableMatch))).take 10)]
            isError := true }
        | some appMatch =>
          match tracker with
          | .threw e => errResult e
          | .ok td =>
            match decodeStageData td.stage_data with
            | .threw e => errResult e
            | .ok stages =>
              { content := [Payload.success (assembleResult env matchId mode appMatch td stages)]
                isError := false }

/-- All inputs of one handler invocation. -/
structure HandlerInput where
  params : ToolParams
  profile : Fetch ProfileResponse
  tracker : Fetch TrackerData
deriving DecidableEq, Repr

/-- `handleTftMatchTracker` from `src/tools/tracker.ts`:
`const { matchId, mode = "summary" } = params` means the default applies
exactly when `mode` is absent. -/
def handleTftMatchTracker (env : Env) (inp : HandlerInput) : ToolResult :=
  handleCore env inp.params.matchId (inp.params.mode.getD "summary") inp.profile inp.tracker

/-- The success payload of a result, when there is one. -/
def resultOf (r : ToolResult) : Option TrackerResult :=
  match r.content with
  | [Payload.success tr] => some tr
  | _ => none

/-! ## Concrete test fixtures used by witnesses and counterexamples -/

/-- Environment with empty caches, game name `"me"`, trivial timestamp
formatting. -/
def cEnv : Env := ⟨[], [], "me", fun _ => ""⟩

def cAppMatch : AppMatch := ⟨"uuid-1", "123", 0⟩

def cProfile : ProfileResponse := ⟨some [cAppMatch]⟩

def cTrackerData (sd : StageDataField) : TrackerData :=
  ⟨"EUW", "Me", sd, none, none, none⟩

def cInput (mode : Option String) (sd : StageDataField) : HandlerInput :=
  ⟨⟨"EUW1_123", mode⟩, Fetch.ok cProfile, Fetch.ok (cTrackerData sd)⟩

/-- A stage whose only content is a round label. -/
def labeledStage (lbl : String) : TrackerStage :=
  { emptyStage with match_info := some ⟨some ⟨some lbl, none, none⟩, none, none⟩ }

/-- A stage whose only content is one unit-damage record. -/
def damageStage (nm : String) (d : Option Int) (lvl : Int) : TrackerStage :=
  { emptyStage with local_player_damage := some ⟨some [(nm, ⟨nm, d, lvl⟩)]⟩ }

/-! ## Claim C9: determinism of the pipeline -/

/-- Claim C9: running the full pipeline twice on the same decoded tracker
data, request parameters and resolver/environment state yields identical
assembled output.  The core is modelled as a pure function of the request
input and the environment (name caches, game name, locale-fixed timestamp
formatting); no other state exists, so equal inputs give equal outputs. -/
theorem pipeline_deterministic (env : Env) (inp inp' : HandlerInput) (h : inp = inp') :
    handleTftMatchTracker env inp = handleTftMatchTracker env inp' := by
  rw [h]

theorem pipeline_deterministic_witness :
    handleTftMatchTracker cEnv (cInput none (StageDataField.arr [emptyStage])) =
      handleTftMatchTracker cEnv (cInput none (StageDataField.arr [emptyStage])) :=
  pipeline_deterministic cEnv _ _ rfl

/-! ## Claim C5: income/rerolls presence in compact round summaries -/

/-- A stage that earned zero gold. -/
def incomeZeroStage : TrackerStage := { emptyStage with gold_earned := some 0 }

/-- Claim C5 counterexample: a stage with `gold_earned = 0` still gets an
`income` field (`some 0`) in its compact summary — the source only checks
`!== undefined` for income — so "omitted when their value is zero" fails. -/
theorem income_zero_included :
    ((formatAllStages cEnv [incomeZeroStage]).map (fun r => r.income)) = [some 0] ∧
    (some (0 : Int)) ≠ (none : Option Int) := by
  exact ⟨by decide, by decide⟩

/-- Claim C5, amended: in every compact per-round summary, `rerolls` is
included exactly when the stage's field is present and positive (so zero is
omitted), while `income` is included exactly when `gold_earned` is present —
including when it is zero. -/
theorem income_rerolls_presence (env : Env) (stages : List TrackerStage) (i : Nat) :
    ((formatAllStages env stages)[i]?).map (fun r => r.income) =
      (stages[i]?).map (fun st => st.gold_earned) ∧
    ((formatAllStages env stages)[i]?).map (fun r => r.rerolls) =
      (stages[i]?).map (fun st => st.rerolls.filter (fun r => r > 0)) := by
  constructor <;>
  · simp only [formatAllStages, List.getElem?_map, List.getElem?_enum, Option.map_map]
    cases hst : stages[i]? with
    | none => rfl
    | some st =>
      simp only [Option.map_some']
      cases hr : st.rerolls with
      | none => simp [formatStageSummary, hr, Option.filter]
      | some r =>
        by_cases hp : r > 0 <;>
          simp [formatStageSummary, hr, Option.filter, hp]

/-! ## Claim C8: missing `board`/`bench`/`me` sub-objects -/

/-- Claim C8 counterexample: on a stage record with `board`, `bench` and
`me` all absent, `formatStageData` simply omits the `player`, `board` and
`bench` keys (all `none`), rather than producing the zeroed scalars and
empty collections the claim asserts. -/
theorem missing_parts_omitted_not_zeroed :
    ((formatStageData cEnv [emptyStage] 0).map
      (fun f => (f.player, f.board, f.bench))) = some (none, none, none) ∧
    ((none : Option PlayerBlock) ≠ some ⟨0, 0, 0⟩) ∧
    ((none : Option (List FormattedPiece)) ≠ some []) :=
  ⟨by decide, by decide, by decide⟩

/-- Claim C8, amended: for every stage record missing its `board`, `bench`
or `me` sub-objects — each independently, so any subset may be missing —
the normalizers never fail (they are total functions returning a snapshot
for every in-range index) and the output fields corresponding to each
missing sub-object are omitted entirely (a missing `me` omits the
`player` key of the detailed snapshot and the `hp`/`gold`/`level` keys of
the compact summary; a missing `board` omits the `board` key and the
summary's `boardSize`; a missing `bench` omits the `bench` key), rather
than producing zeroed scalars or empty collections. -/
theorem missing_subobjects_omit_fields (env : Env) (stages : List TrackerStage)
    (i : Int) (st : TrackerStage) (k : Nat)
    (hget : listGetInt stages i = some st) :
    (formatStageData env stages i).isSome = true ∧
    (st.me = none →
      ((formatStageData env stages i).map (fun f => f.player)) = some none ∧
      (formatStageSummary env k st).hp = none ∧
      (formatStageSummary env k st).gold = none ∧
      (formatStageSummary env k st).level = none) ∧
    (st.board = none →
      ((formatStageData env stages i).map (fun f => f.board)) = some none ∧
      (formatStageSummary env k st).boardSize = none) ∧
    (st.bench = none →
      ((formatStageData env stages i).map (fun f => f.bench)) = some none) := by
  unfold formatStageData
  rw [hget]
  refine ⟨rfl, ?_, ?_, ?_⟩ <;> intro h <;> simp [formatStageSummary, h]

/-- A stage whose `me` object exists but has no health/gold/xp strings. -/
def meOnlyStage : TrackerStage := { emptyStage with me := some ⟨none, none, none⟩ }

/-- A stage whose only content is a (piece-less) board object, so that
`me` and `bench` are missing while `board` is present. -/
def boardOnlyStage : TrackerStage := { emptyStage with board := some ⟨some []⟩ }

theorem missing_subobjects_omit_fields_witness :
    ((formatStageData cEnv [meOnlyStage] 0).map (fun f => f.board)) = some none ∧
    ((formatStageData cEnv [boardOnlyStage] 0).map (fun f => f.player)) = some none ∧
    (formatStageSummary cEnv 0 boardOnlyStage).hp = none ∧
    ((formatStageData cEnv [boardOnlyStage] 0).map (fun f => f.bench)) = some none :=
  ⟨((missing_subobjects_omit_fields cEnv [meOnlyStage] 0 meOnlyStage 0
      (by decide)).2.2.1 rfl).1,
   ((missing_subobjects_omit_fields cEnv [boardOnlyStage] 0 boardOnlyStage 0
      (by decide)).2.1 rfl).1,
   ((missing_subobjects_omit_fields cEnv [boardOnlyStage] 0 boardOnlyStage 0
      (by decide)).2.1 rfl).2.1,
   (missing_subobjects_omit_fields cEnv [boardOnlyStage] 0 boardOnlyStage 0
      (by decide)).2.2.2 rfl⟩

/-! ## Claim C2: numeric-string parsing defaults -/

/-- A board piece whose star-level string is non-numeric. -/
def badLevelPiece : BoardPiece := ⟨"X", some "x", none, none, none⟩

/-- Claim C2 counterexample: a board/bench piece with a non-numeric level
string gets star level `1` (`parseInt(u.level) || 1`), not the `0` the
claim asserts. -/
theorem star_level_fallback_is_one :
    (formatBoardPiece cEnv badLevelPiece).stars = 1 ∧ ((1 : Int) ≠ 0) :=
  ⟨by decide, by decide⟩

/-- Claim C2, amended: the numeric-string parsing never errors (all the
modelled parsers are total functions), and the defaults are: player
`health`/`gold` in both the detailed snapshot and the compact summary fall
back to `0` when the string is absent or unparsable; board/bench piece star
levels fall back to `1`; the assembled summary's `startingHealth` falls
back to the string `"100"` (value `100`) when the first stage's health
string is absent/empty, while `finalHealth`/`finalGold` fall back to `"0"`
(value `0`); when those last three strings are present, nonempty but
non-numeric the result is `NaN` (serialized `null`), not `0`. -/
theorem numeric_string_defaults (env : Env)
    (stages stages2 stages3 stages4 : List TrackerStage)
    (i : Int) (st : TrackerStage) (me : MeInfo) (u : BoardPiece) (k : Nat)
    (s3 : String)
    (hget : listGetInt stages i = some st) (hme : st.me = some me)
    (hh : me.health.bind jsParseInt = none)
    (hg : me.gold.bind jsParseInt = none)
    (hu : u.level.bind jsParseInt = none)
    (hfirst : (stages2.head?.bind (fun t => t.me)).bind (fun m => m.health) = none)
    (hlast3 : (stages3.getLast?.bind (fun t => t.me)).bind (fun m => m.health) = some s3)
    (hs3 : jsParseInt s3 = none) (hs3ne : s3 ≠ "")
    (hlast4h : (stages4.getLast?.bind (fun t => t.me)).bind (fun m => m.health) = none)
    (hlast4g : (stages4.getLast?.bind (fun t => t.me)).bind (fun m => m.gold) = none) :
    ((formatStageData env stages i).bind (fun f => f.player)).map (fun p => p.health)
      = some 0 ∧
    ((formatStageData env stages i).bind (fun f => f.player)).map (fun p => p.gold)
      = some 0 ∧
    (formatStageSummary env k st).hp = some 0 ∧
    (formatStageSummary env k st).gold = some 0 ∧
    (formatBoardPiece env u).stars = 1 ∧
    (formatBenchPiece env u).stars = 1 ∧
    summaryStartingHealth stages2 = some 100 ∧
    summaryFinalHealth stages3 = none ∧
    summaryFinalHealth stages4 = some 0 ∧
    summaryFinalGold stages4 = some 0 := by
  refine ⟨?_, ?_, ?_, ?_, ?_, ?_, ?_, ?_, ?_, ?_⟩
  · unfold formatStageData; rw [hget]; simp [hme, hh, jsOrInt]
  · unfold formatStageData; rw [hget]; simp [hme, hg, jsOrInt]
  · simp [formatStageSummary, hme, hh, jsOrInt]
  · simp [formatStageSummary, hme, hg, jsOrInt]
  · simp [formatBoardPiece, hu, jsOrInt]
  · simp [formatBenchPiece, hu, jsOrInt]
  · unfold summaryStartingHealth; rw [hfirst]; decide
  · unfold summaryFinalHealth; rw [hlast3]
    simp [strOrElse, hs3ne, hs3]
  · unfold summaryFinalHealth; rw [hlast4h]; decide
  · unfold summaryFinalGold; rw [hlast4g]; decide

/-- A stage whose `me.health` is a non-numeric string. -/
def badHealthStage : TrackerStage :=
  { emptyStage with me := some ⟨some "abc", none, none⟩ }

theorem numeric_string_defaults_witness :
    (formatBoardPiece cEnv ⟨"X", none, none, none, none⟩).stars = 1 ∧
    summaryStartingHealth [] = some 100 ∧
    summaryFinalHealth [badHealthStage] = none := by
  have h := numeric_string_defaults cEnv
    [meOnlyStage] [] [badHealthStage] []
    0 meOnlyStage ⟨none, none, none⟩ ⟨"X", none, none, none, none⟩ 0
    "abc" (by decide) rfl rfl rfl rfl rfl (by decide) (by decide) (by decide) rfl rfl
  exact ⟨h.2.2.2.2.1, h.2.2.2.2.2.2.1, h.2.2.2.2.2.2.2.1⟩

/-! ## Claim C1: mode defaulting -/

/-- Behavior of `handleCore` under a mode string that is neither
`"summary"` nor `"complete"`: same error behavior and same (summary-style)
key-stage progression as explicit `"summary"`, but the compact
`roundProgression` is omitted and the invalid mode string is echoed. -/
theorem handleCore_invalid_mode (env : Env) (matchId m : String)
    (profile : Fetch ProfileResponse) (tracker : Fetch TrackerData)
    (h1 : m ≠ "summary") (h2 : m ≠ "complete") :
    (handleCore env matchId m profile tracker).isError
      = (handleCore env matchId "summary" profile tracker).isError ∧
    (resultOf (handleCore env matchId m profile tracker)).map (fun r => r.stageProgression)
      = (resultOf (handleCore env matchId "summary" profile tracker)).map
          (fun r => r.stageProgression) ∧
    (resultOf (handleCore env matchId m profile tracker)).bind
      (fun r => r.roundProgression) = none ∧
    (resultOf (handleCore env matchId m profile tracker)).map (fun r => r.mode)
      = (resultOf (handleCore env matchId m profile tracker)).map (fun _ => m) := by
  have hm1 : (m == "complete") = false := by simp [h2]
  have hm2 : (m == "summary") = false := by simp [h1]
  cases profile with
  | threw e => simp [handleCore, errResult, resultOf]
  | ok prof =>
    cases hams : prof.app_matches with
    | none => simp [handleCore, hams, noTrackerResult, resultOf]
    | some ams =>
      by_cases hemp : ams.isEmpty
      · simp [handleCore, hams, hemp, noTrackerResult, resultOf]
      · cases hf : ams.find? (fun mm => mm.match_id_ow == matchNumberOf matchId) with
        | none => simp [handleCore, hams, hemp, hf, resultOf]
        | some appMatch =>
          cases tracker with
          | threw e => simp [handleCore, hams, hemp, hf, errResult, resultOf]
          | ok td =>
            cases hd : decodeStageData td.stage_data with
            | threw e => simp [handleCore, hams, hemp, hf, hd, errResult, resultOf]
            | ok stages =>
              simp [handleCore, hams, hemp, hf, hd, resultOf, assembleResult, hm1, hm2]

/-- Claim C1 counterexample: with the mode parameter present but invalid
(`"invalid"`), the assembled result is not identical to the explicit
`"summary"` invocation — the source's `mode === "summary"` check fails, so
the compact `roundProgression` is omitted and the invalid string is echoed
in the `mode` field. -/
theorem invalid_mode_differs_from_summary :
    handleTftMatchTracker cEnv (cInput (some "invalid") (StageDataField.arr [])) ≠
      handleTftMatchTracker cEnv (cInput (some "summary") (StageDataField.arr [])) := by
  decide

/-- Claim C1, amended: an absent mode behaves identically to explicit
`"summary"` (the destructuring default) and never fails; a present but
invalid mode value also never changes the error behavior and produces the
same summary-style key-stage `stageProgression`, but omits the compact
`roundProgression` and echoes the invalid mode string in the result's
`mode` field, so its assembled result is not identical to `"summary"`'s. -/
theorem mode_default_and_invalid :
    (∀ (env : Env) (inp : HandlerInput), inp.params.mode = none →
      handleTftMatchTracker env inp =
        handleTftMatchTracker env
          ⟨⟨inp.params.matchId, some "summary"⟩, inp.profile, inp.tracker⟩) ∧
    (∀ (env : Env) (inp : HandlerInput) (m : String), inp.params.mode = some m →
      m ≠ "summary" → m ≠ "complete" →
      (handleTftMatchTracker env inp).isError
        = (handleTftMatchTracker env
            ⟨⟨inp.params.matchId, some "summary"⟩, inp.profile, inp.tracker⟩).isError ∧
      (resultOf (handleTftMatchTracker env inp)).map (fun r => r.stageProgression)
        = (resultOf (handleTftMatchTracker env
            ⟨⟨inp.params.matchId, some "summary"⟩, inp.profile, inp.tracker⟩)).map
              (fun r => r.stageProgression) ∧
      (resultOf (handleTftMatchTracker env inp)).bind
        (fun r => r.roundProgression) = none ∧
      (resultOf (handleTftMatchTracker env inp)).map (fun r => r.mode)
        = (resultOf (handleTftMatchTracker env inp)).map (fun _ => m)) := by
  constructor
  · intro env inp h
    simp [handleTftMatchTracker, h]
  · intro env inp m hm h1 h2
    have : handleTftMatchTracker env inp
        = handleCore env inp.params.matchId m inp.profile inp.tracker := by
      simp [handleTftMatchTracker, hm]
    rw [this]
    exact handleCore_invalid_mode env inp.params.matchId m inp.profile inp.tracker h1 h2

theorem mode_default_and_invalid_witness :
    (handleTftMatchTracker cEnv (cInput none (StageDataField.arr [])) =
      handleTftMatchTracker cEnv (cInput (some "summary") (StageDataField.arr []))) ∧
    (resultOf (handleTftMatchTracker cEnv
      (cInput (some "invalid") (StageDataField.arr [])))).bind
        (fun r => r.roundProgression) = none := by
  constructor
  · exact mode_default_and_invalid.1 cEnv (cInput none (StageDataField.arr [])) rfl
  · exact (mode_default_and_invalid.2 cEnv
      (cInput (some "invalid") (StageDataField.arr [])) "invalid" rfl
      (by decide) (by decide)).2.2.1

/-! ## Claim C6: decoder equivalence for string vs pre-decoded `stage_data` -/

/-- `assembleResult` never reads the envelope's `stage_data` field (it
receives the decoded stages separately), so that field is irrelevant to
the assembled output. -/
theorem assembleResult_stage_data_irrel (env : Env) (mid mode : String)
    (am : AppMatch) (sv sn : String) (sd : StageDataField)
    (p t se : Option String) (stages : List TrackerStage) :
    assembleResult env mid mode am ⟨sv, sn, sd, p, t, se⟩ stages
      = assembleResult env mid mode am ⟨sv, sn, StageDataField.arr [], p, t, se⟩ stages := rfl

/-- Claim C6: when the `stage_data` string JSON-decodes to a stage array,
presenting that array pre-decoded yields the same decoded stage sequence
(an already-decoded array is used directly, without re-decoding) and hence
a byte-identical assembled result from the full pipeline. -/
theorem decoder_equivalence (env : Env) (params : ToolParams)
    (profile : Fetch ProfileResponse) (td : TrackerData)
    (s : String) (stages : List TrackerStage)
    (h : parseStages s = some stages) :
    decodeStageData (StageDataField.str s) = Fetch.ok stages ∧
    decodeStageData (StageDataField.arr stages) = Fetch.ok stages ∧
    handleTftMatchTracker env
        ⟨params, profile, Fetch.ok { td with stage_data := StageDataField.str s }⟩ =
      handleTftMatchTracker env
        ⟨params, profile, Fetch.ok { td with stage_data := StageDataField.arr stages }⟩ := by
  refine ⟨by simp [decodeStageData, h], rfl, ?_⟩
  simp only [handleTftMatchTracker, handleCore, decodeStageData, h,
    assembleResult_stage_data_irrel]

/-- One concrete stage record in JSON form: a singleton array holding an
object with `me` and `rerolls` fields. -/
def sampleStageJson : String :=
  "[\x7b\"me\":\x7b\"health\":\"55\",\"gold\":\"10\"\x7d,\"rerolls\":3\x7d]"

def sampleStage : TrackerStage :=
  { emptyStage with me := some ⟨some "55", some "10", none⟩, rerolls := some 3 }

theorem decoder_equivalence_witness :
    parseStages sampleStageJson = some [sampleStage] ∧
    handleTftMatchTracker cEnv
        (cInput none (StageDataField.str sampleStageJson)) =
      handleTftMatchTracker cEnv
        (cInput none (StageDataField.arr [sampleStage])) := by
  have hp : parseStages sampleStageJson = some [sampleStage] := by decide
  exact ⟨hp,
    (decoder_equivalence cEnv ⟨"EUW1_123", none⟩ (Fetch.ok cProfile)
      (cTrackerData (StageDataField.arr [])) sampleStageJson [sampleStage] hp).2.2⟩

/-! ## Claim C7: error propagation policy -/

/-- Is the `stage_data` field decodable into a stage array? -/
def stageDataParseable : StageDataField → Bool
  | .arr _ => true
  | .str s => (parseStages s).isSome

/-- The conditions under which the pipeline reaches its success path:
the profile fetch did not throw, tracker matches exist, one matches the
requested id, the envelope fetch did not throw, and the stage array is
decodable.  (Everything else — missing fields inside parsed stages — is
defaulted by the total normalizers and cannot abort.) -/
def pipelineOk (inp : HandlerInput) : Bool :=
  (match inp.profile with
   | .ok prof =>
     match prof.app_matches with
     | some ams =>
       !ams.isEmpty &&
         (ams.find? (fun m => m.match_id_ow == matchNumberOf inp.params.matchId)).isSome
     | none => false
   | .threw _ => false) &&
  (match inp.tracker with
   | .ok td => stageDataParseable td.stage_data
   | .threw _ => false)

/-- Claim C7: the handler always returns exactly one structured content
payload and never throws (it is a total function); the result is non-error
exactly when the collaborator fetches succeeded, a tracked match exists and
the stage array is decodable — per-field extraction issues never abort —
and it is non-error exactly when the single payload is a full assembled
success result (never a partial or ambiguous success). -/
theorem error_handling_policy (env : Env) (inp : HandlerInput) :
    (handleTftMatchTracker env inp).content.length = 1 ∧
    ((handleTftMatchTracker env inp).isError = false ↔ pipelineOk inp = true) ∧
    ((handleTftMatchTracker env inp).isError = false ↔
      ∃ tr, (handleTftMatchTracker env inp).content = [Payload.success tr]) := by
  obtain ⟨params, profile, tracker⟩ := inp
  cases profile with
  | threw e => simp [handleTftMatchTracker, handleCore, errResult, pipelineOk]
  | ok prof =>
    cases hams : prof.app_matches with
    | none => simp [handleTftMatchTracker, handleCore, hams, noTrackerResult, pipelineOk]
    | some ams =>
      by_cases hemp : ams.isEmpty
      · simp [handleTftMatchTracker, handleCore, hams, hemp, noTrackerResult, pipelineOk]
      · cases hf : ams.find? (fun m => m.match_id_ow == matchNumberOf params.matchId) with
        | none =>
          simp [handleTftMatchTracker, handleCore, hams, hemp, hf, pipelineOk]
        | some appMatch =>
          cases tracker with
          | threw e =>
            simp [handleTftMatchTracker, handleCore, hams, hemp, hf, errResult, pipelineOk]
          | ok td =>
            cases hsd : td.stage_data with
            | arr stages =>
              simp [handleTftMatchTracker, handleCore, hams, hemp, hf, hsd,
                decodeStageData, pipelineOk, stageDataParseable]
            | str s =>
              cases hp : parseStages s with
              | none =>
                simp [handleTftMatchTracker, handleCore, hams, hemp, hf, hsd,
                  decodeStageData, hp, errResult, pipelineOk, stageDataParseable]
              | some stages =>
                simp [handleTftMatchTracker, handleCore, hams, hemp, hf, hsd,
                  decodeStageData, hp, pipelineOk, stageDataParseable]

/-! ## Claim C10: empty decoded stage array -/

/-- Claim C10: when the decoded stage array is empty the pipeline still
succeeds: `findKeyProgressionStages` returns `[-1]`, `formatStageData` at
the out-of-range index `-1` returns `null`, so the summary-mode
`stageProgression` is `[null]`; `totalRounds` is `0`, the final board is
empty, and `startingHealth`/`finalHealth` default to `100` and `0`. -/
theorem empty_stage_array_behavior (env : Env) (inp : HandlerInput)
    (prof : ProfileResponse) (ams : List AppMatch) (am : AppMatch) (td : TrackerData)
    (h1 : inp.profile = Fetch.ok prof)
    (h2 : prof.app_matches = some ams)
    (h3 : ams.isEmpty = false)
    (h4 : ams.find? (fun m => m.match_id_ow == matchNumberOf inp.params.matchId) = some am)
    (h5 : inp.tracker = Fetch.ok td)
    (h6 : decodeStageData td.stage_data = Fetch.ok [])
    (h7 : inp.params.mode.getD "summary" ≠ "complete") :
    (handleTftMatchTracker env inp).isError = false ∧
    findKeyProgressionStages [] = [-1] ∧
    formatStageData env [] (-1) = none ∧
    (resultOf (handleTftMatchTracker env inp)).map (fun r => r.totalRounds) = some 0 ∧
    (resultOf (handleTftMatchTracker env inp)).map (fun r => r.stageProgression)
      = some [none] ∧
    (resultOf (handleTftMatchTracker env inp)).map (fun r => r.finalBoard) = some [] ∧
    (resultOf (handleTftMatchTracker env inp)).map
      (fun r => r.summary.startingHealth) = some (some 100) ∧
    (resultOf (handleTftMatchTracker env inp)).map
      (fun r => r.summary.finalHealth) = some (some 0) := by
  have hmode : (inp.params.mode.getD "summary" == "complete") = false := by
    simp [h7]
  have hfsd : formatStageData env [] (-1) = none := by
    unfold formatStageData
    rw [show listGetInt ([] : List TrackerStage) (-1) = none from by simp [listGetInt]]
  have hkey : findKeyProgressionStages ([] : List TrackerStage) = [-1] := by decide
  have hhandle : handleTftMatchTracker env inp =
      { content := [Payload.success (assembleResult env inp.params.matchId
          (inp.params.mode.getD "summary") am td [])], isError := false } := by
    simp [handleTftMatchTracker, handleCore, h1, h2, h3, h4, h5, h6]
  refine ⟨by rw [hhandle], hkey, hfsd, ?_, ?_, ?_, ?_, ?_⟩ <;>
    simp [hhandle, resultOf, assembleResult, hmode, hkey, hfsd, finalBoardOf,
      summaryStartingHealth, summaryFinalHealth, strOrElse, jsParseInt,
      parseIntUnsigned, parseDecRun, natOfDigits]

theorem empty_stage_array_behavior_witness :
    (handleTftMatchTracker cEnv (cInput none (StageDataField.arr []))).isError = false ∧
    (resultOf (handleTftMatchTracker cEnv (cInput none (StageDataField.arr [])))).map
      (fun r => r.stageProgression) = some [none] := by
  have h := empty_stage_array_behavior cEnv (cInput none (StageDataField.arr []))
    cProfile [cAppMatch] cAppMatch (cTrackerData (StageDataField.arr []))
    rfl rfl (by decide) (by decide) rfl rfl (by decide)
  exact ⟨h.1, h.2.2.2.2.1⟩

/-! ## Generic facts about the stable-sort model -/

theorem mem_jsSortInsert {le : α → α → Bool} {a x : α} {l : List α} :
    x ∈ jsSortInsert le a l ↔ x = a ∨ x ∈ l := by
  induction l with
  | nil => simp [jsSortInsert]
  | cons b bs ih =>
    simp only [jsSortInsert]
    by_cases h : le a b
    · simp [h]
    · simp [h, ih]
      tauto

theorem mem_jsStableSort {le : α → α → Bool} {x : α} {l : List α} :
    x ∈ jsStableSort le l ↔ x ∈ l := by
  induction l with
  | nil => simp [jsStableSort]
  | cons a as ih =>
    simp only [jsStableSort]
    rw [mem_jsSortInsert, ih, List.mem_cons]

theorem pairwise_jsSortInsert {le : α → α → Bool}
    (htot : ∀ a b, le a b = true ∨ le b a = true)
    (htrans : ∀ a b c, le a b = true → le b c = true → le a c = true)
    (a : α) {l : List α} (h : l.Pairwise (fun x y => le x y = true)) :
    (jsSortInsert le a l).Pairwise (fun x y => le x y = true) := by
  induction l with
  | nil => simp [jsSortInsert]
  | cons b bs ih =>
    rw [List.pairwise_cons] at h
    obtain ⟨hb, hbs⟩ := h
    simp only [jsSortInsert]
    by_cases hab : le a b = true
    · rw [if_pos hab]
      refine List.Pairwise.cons ?_ (List.Pairwise.cons hb hbs)
      intro y hy
      rcases List.mem_cons.mp hy with rfl | hy'
      · exact hab
      · exact htrans a b y hab (hb y hy')
    · rw [if_neg hab]
      refine List.Pairwise.cons ?_ (ih hbs)
      intro y hy
      rcases mem_jsSortInsert.mp hy with h1 | hy'
      · cases h1
        exact (htot _ b).resolve_left hab
      · exact hb y hy'

theorem pairwise_jsStableSort {le : α → α → Bool}
    (htot : ∀ a b, le a b = true ∨ le b a = true)
    (htrans : ∀ a b c, le a b = true → le b c = true → le a c = true)
    (l : List α) :
    (jsStableSort le l).Pairwise (fun x y => le x y = true) := by
  induction l with
  | nil => exact List.Pairwise.nil
  | cons a as ih => exact pairwise_jsSortInsert htot htrans a ih

theorem filter_jsSortInsert_pos {le : α → α → Bool} {p : α → Bool} {a : α}
    (hp : p a = true) (hcl : ∀ b, p b = true → le a b = true) (l : List α) :
    (jsSortInsert le a l).filter p = a :: l.filter p := by
  induction l with
  | nil => simp [jsSortInsert, hp]
  | cons b bs ih =>
    simp only [jsSortInsert]
    by_cases hab : le a b = true
    · rw [if_pos hab]
      simp [List.filter, hp]
    · rw [if_neg hab]
      have hpb : p b = false := by
        cases hq : p b with
        | true => exact absurd (hcl b hq) hab
        | false => rfl
      simp [List.filter, hpb, ih]

theorem filter_jsSortInsert_neg {le : α → α → Bool} {p : α → Bool} {a : α}
    (hp : p a = false) (l : List α) :
    (jsSortInsert le a l).filter p = l.filter p := by
  induction l with
  | nil => simp [jsSortInsert, hp]
  | cons b bs ih =>
    simp only [jsSortInsert]
    by_cases hab : le a b = true
    · rw [if_pos hab]
      simp [List.filter, hp]
    · rw [if_neg hab]
      simp [List.filter, ih]

/-- Stability of the modelled sort on an equivalence class of the
comparator: elements selected by `p` (mutually tied under `le`) appear in
the sorted output in their original relative order. -/
theorem filter_jsStableSort {le : α → α → Bool} {p : α → Bool}
    (hcl : ∀ a b, p a = true → p b = true → le a b = true) (l : List α) :
    (jsStableSort le l).filter p = l.filter p := by
  induction l with
  | nil => rfl
  | cons a as ih =>
    simp only [jsStableSort]
    by_cases hp : p a = true
    · rw [filter_jsSortInsert_pos hp (fun b hb => hcl a b hp hb), ih]
      simp [List.filter, hp]
    · have hp' : p a = false := by
        cases hq : p a with
        | true => exact absurd hq hp
        | false => rfl
      rw [filter_jsSortInsert_neg hp', ih]
      simp [List.filter, hp']

/-! ## Claim C4: carry-damage ranking -/

theorem foldl_filter_guard {α β : Type} (p : α → Bool) (f : β → α → β)
    (l : List α) (x : β) :
    (l.filter p).foldl f x = l.foldl (fun a b => if p b then f a b else a) x := by
  induction l generalizing x with
  | nil => rfl
  | cons a as ih =>
    simp only [List.filter]
    cases hp : p a <;> simp [List.foldl, hp, ih]

/-- Spec-side transformation: drop every unit-damage record whose damage is
absent or not positive. -/
def filterPositiveDamage (stages : List TrackerStage) : List TrackerStage :=
  stages.map (fun st =>
    { st with local_player_damage := st.local_player_damage.map (fun d =>
        ⟨d.units.map (fun units => units.filter (fun p => damagePos p.2))⟩) })

/-- Claim C4 counterexample: with damage records `{A:1}` and `{A:2}` the
entry has total `3` over `2` rounds but `avgDamage = 2` — the source
computes `Math.round(total/count)`, which is neither the exact quotient
(`2·2 ≠ 3`) nor the truncated one (`3/2 = 1`), so `avgDamage = total/count`
as claimed fails. -/
theorem avg_damage_is_rounded :
    calculateCarryStats cEnv [damageStage "A" (some 1) 1, damageStage "A" (some 2) 1]
      = [⟨"A", 3, 2, 2, 1⟩] ∧ ¬((2 : Int) * 2 = 3) ∧ (2 : Int) ≠ 3 / 2 := by
  exact ⟨by decide, by decide, by decide⟩

/-- Claim C4, amended: `calculateCarryStats` folds over all stages
accumulating per resolved unit name the total damage, occurrence count and
maximum star level, with only records of damage > 0 contributing (zero or
absent damage entries are dropped without error — conjunct four); each
ranked entry satisfies `avgDamage = Math.round(total/count)` (round half
up, not the exact quotient); the ranking is sorted descending by total
damage, with ties broken by insertion order — entries of equal total keep
the fold's first-encounter order (conjunct three, by stability of the
sort); and the `{A:100},{B:50},{A:50}` example ranks
`[A(150, avg 75), B(50, avg 50)]`. -/
theorem carry_stats_properties (env : Env) (stages : List TrackerStage) :
    (calculateCarryStats env stages).Pairwise
      (fun a b => b.totalDamage ≤ a.totalDamage) ∧
    (∀ e ∈ calculateCarryStats env stages,
      e.avgDamage = jsRoundDiv e.totalDamage e.roundsPlayed) ∧
    (∀ t : Int, (calculateCarryStats env stages).filter (fun e => e.totalDamage == t)
      = ((carryFold env stages).map carryEntryOf).filter (fun e => e.totalDamage == t)) ∧
    carryFold env stages = carryFold env (filterPositiveDamage stages) ∧
    calculateCarryStats cEnv
      [damageStage "A" (some 100) 1, damageStage "B" (some 50) 1,
        damageStage "A" (some 50) 1]
      = [⟨"A", 150, 75, 2, 1⟩, ⟨"B", 50, 50, 1, 1⟩] := by
  refine ⟨?_, ?_, ?_, ?_, by decide⟩
  · have h := @pairwise_jsStableSort CarryEntry
      (fun a b => decide ((b.totalDamage - a.totalDamage : Int) ≤ 0))
      (fun a b => by
        rcases le_total a.totalDamage b.totalDamage with hle | hle <;>
          simp [decide_eq_true_eq] <;> omega)
      (fun a b c hab hbc => by
        simp only [decide_eq_true_eq] at hab hbc ⊢
        omega)
      ((carryFold env stages).map carryEntryOf)
    unfold calculateCarryStats jsSortBy
    exact h.imp (fun hab => by
      simp only [decide_eq_true_eq] at hab
      omega)
  · intro e he
    unfold calculateCarryStats jsSortBy at he
    rw [mem_jsStableSort] at he
    obtain ⟨q, _, rfl⟩ := List.mem_map.mp he
    rfl
  · intro t
    unfold calculateCarryStats jsSortBy
    exact filter_jsStableSort (fun a b ha hb => by
      have ha' : a.totalDamage = t := by simpa using ha
      have hb' : b.totalDamage = t := by simpa using hb
      simp [ha', hb']) _
  · unfold carryFold filterPositiveDamage
    rw [List.foldl_map]
    congr 1
    funext acc st
    cases hl : st.local_player_damage with
    | none => simp [hl]
    | some d =>
      obtain ⟨du⟩ := d
      cases du with
      | none => simp [hl]
      | some us =>
        simp only [hl, Option.map_some']
        show List.foldl _ acc us = List.foldl _ acc (us.filter (fun p => damagePos p.2))
        rw [foldl_filter_guard]
        congr 1
        funext a b
        by_cases hb : damagePos b.2 <;> simp [hb]

/-! ## Claim C3: key-stage selection -/

/-- The round label of stage `k`, as the scan reads it. -/
def labelAt (stages : List TrackerStage) (k : Nat) : Option String :=
  stages[k]?.bind stageLabelOf

/-- Spec-side predicate, following the claim's words: stage `k` carries one
of the canonical labels and is its first occurrence in scan order. -/
def isFirstKeyOccurrence (stages : List TrackerStage) (k : Nat) : Bool :=
  match labelAt stages k with
  | some l => keyRounds.contains l &&
      ((List.range k).all (fun j => !(labelAt stages j == some l)))
  | none => false

/-- Spec-side scan: the indices of the first occurrence of each canonical
label, in scan order. -/
def keyStageSpecScan (stages : List TrackerStage) : List Int :=
  ((List.range stages.length).filter (isFirstKeyOccurrence stages)).map
    (fun (k : Nat) => (k : Int))

/-- Spec-side selector, following the claim's words: the first-occurrence
indices with the final stage index appended when it is not already the
last selected index. -/
def keyStageSpecSelector (stages : List TrackerStage) : List Int :=
  if (keyStageSpecScan stages).getLast? = some ((stages.length : Int) - 1) then
    keyStageSpecScan stages
  else
    keyStageSpecScan stages ++ [(stages.length : Int) - 1]

/-- The scan-relative first-occurrence predicate: like
`isFirstKeyOccurrence` but relative to an already-`found` label set (and
with the source's redundant truthiness check kept). -/
def firstKeyIn (stages : List TrackerStage) (found : List String) (k : Nat) : Bool :=
  match labelAt stages k with
  | some l => !(l == "") && keyRounds.contains l && !(found.contains l) &&
      ((List.range k).all (fun j => !(labelAt stages j == some l)))
  | none => false

theorem labelAt_cons_zero (st : TrackerStage) (rest : List TrackerStage) :
    labelAt (st :: rest) 0 = stageLabelOf st := by
  simp [labelAt]

theorem labelAt_cons_succ (st : TrackerStage) (rest : List TrackerStage) (k : Nat) :
    labelAt (st :: rest) (k + 1) = labelAt rest k := by
  simp [labelAt]

/-- Splitting the bounded occurrence check at the head stage. -/
theorem all_range_succ_label (st : TrackerStage) (rest : List TrackerStage)
    (k : Nat) (l' : String) :
    ((List.range (k + 1)).all (fun j => !(labelAt (st :: rest) j == some l'))) =
      ((!(stageLabelOf st == some l')) &&
        ((List.range k).all (fun j => !(labelAt rest j == some l')))) := by
  rw [List.range_succ_eq_map, List.all_cons, List.all_map, labelAt_cons_zero]
  have hshift : ((fun j => !(labelAt (st :: rest) j == some l')) ∘ Nat.succ)
      = (fun j => !(labelAt rest j == some l')) := by
    funext j
    simp [Function.comp, labelAt_cons_succ]
  rw [hshift]

/-- Shifting past a labelled head: marking its label `found` is exactly
excluding later stages with the same label. -/
theorem firstKeyIn_cons_some (st : TrackerStage) (rest : List TrackerStage)
    (found : List String) (l : String) (hl : stageLabelOf st = some l) (k : Nat) :
    firstKeyIn (st :: rest) found (k + 1) = firstKeyIn rest (l :: found) k := by
  unfold firstKeyIn
  rw [labelAt_cons_succ]
  cases hx : labelAt rest k with
  | none => rfl
  | some l' =>
    dsimp only
    rw [all_range_succ_label, hl, Bool.eq_iff_iff]
    simp only [Bool.and_eq_true, Bool.not_eq_true', List.contains_cons,
      Bool.or_eq_false_iff, beq_eq_false_iff_ne, ne_eq, beq_iff_eq,
      Option.some.injEq]
    constructor
    · rintro ⟨⟨hA, hF⟩, hne, hAll⟩
      exact ⟨⟨hA, fun he => hne he.symm, hF⟩, hAll⟩
    · rintro ⟨⟨hA, hne, hF⟩, hAll⟩
      exact ⟨⟨hA, hF⟩, fun he => hne he.symm, hAll⟩

/-- Shifting past an unlabelled head. -/
theorem firstKeyIn_cons_none (st : TrackerStage) (rest : List TrackerStage)
    (found : List String) (hl : stageLabelOf st = none) (k : Nat) :
    firstKeyIn (st :: rest) found (k + 1) = firstKeyIn rest found k := by
  unfold firstKeyIn
  rw [labelAt_cons_succ]
  cases hx : labelAt rest k with
  | none => rfl
  | some l' =>
    dsimp only
    rw [all_range_succ_label, hl]
    simp

/-- Shifting past a labelled head that the scan does not select: the
`found` set is unchanged and no later first occurrence is affected. -/
theorem firstKeyIn_cons_unselected (st : TrackerStage) (rest : List TrackerStage)
    (found : List String) (l : String) (hl : stageLabelOf st = some l)
    (hns : (!(l == "") && keyRounds.contains l && !(found.contains l)) = false)
    (k : Nat) :
    firstKeyIn (st :: rest) found (k + 1) = firstKeyIn rest found k := by
  unfold firstKeyIn
  rw [labelAt_cons_succ]
  cases hx : labelAt rest k with
  | none => rfl
  | some l' =>
    dsimp only
    rw [all_range_succ_label, hl, Bool.eq_iff_iff]
    simp only [Bool.and_eq_true, Bool.not_eq_true', List.all_eq_true,
      beq_eq_false_iff_ne, ne_eq, beq_iff_eq, Option.some.injEq,
      Bool.and_eq_false_iff, Bool.not_eq_false'] at hns ⊢
    constructor
    · rintro ⟨⟨hA, hF⟩, _, hAll⟩
      exact ⟨⟨hA, hF⟩, hAll⟩
    · rintro ⟨⟨⟨h1, h2⟩, hF⟩, hAll⟩
      refine ⟨⟨⟨h1, h2⟩, hF⟩, ?_, hAll⟩
      intro he
      rcases hns with (h | h) | h
      · exact h1 (he ▸ h)
      · rw [← he] at h2
        rw [h] at h2
        exact absurd h2 (by decide)
      · rw [← he] at hF
        rw [h] at hF
        exact absurd hF (by decide)

/-- The scanning loop returns exactly the (offset) indices of the
first-occurrence stages relative to the `found` set. -/
theorem scan_eq_filter (stages : List TrackerStage) :
    ∀ (i : Nat) (found : List String),
    scanKeyStages stages i found =
      ((List.range stages.length).filter (firstKeyIn stages found)).map
        (fun k => ((i + k : Nat) : Int)) := by
  induction stages with
  | nil => intro i found; rfl
  | cons st rest ih =>
    intro i found
    rw [show (st :: rest).length = rest.length + 1 from rfl,
      List.range_succ_eq_map, List.filter_cons]
    cases hl : stageLabelOf st with
    | none =>
      have h0 : firstKeyIn (st :: rest) found 0 = false := by
        simp [firstKeyIn, labelAt_cons_zero, hl]
      have hpred : (firstKeyIn (st :: rest) found ∘ Nat.succ) = firstKeyIn rest found := by
        funext k
        exact firstKeyIn_cons_none st rest found hl k
      have hls : scanKeyStages (st :: rest) i found = scanKeyStages rest (i + 1) found := by
        simp only [scanKeyStages, hl]
      rw [h0]
      simp only [Bool.false_eq_true, if_false]
      rw [List.filter_map, hpred, List.map_map, hls, ih (i + 1) found]
      apply List.map_congr_left
      intro k _
      simp only [Function.comp, Nat.succ_eq_add_one]
      push_cast
      ring
    | some l =>
      by_cases hsel : (!(l == "") && keyRounds.contains l && !(found.contains l)) = true
      · have h0 : firstKeyIn (st :: rest) found 0 = true := by
          simp only [firstKeyIn, labelAt_cons_zero, hl, List.range_zero,
            List.all_nil, Bool.and_true]
          exact hsel
        have hpred : (firstKeyIn (st :: rest) found ∘ Nat.succ)
            = firstKeyIn rest (l :: found) := by
          funext k
          exact firstKeyIn_cons_some st rest found l hl k
        have hls : scanKeyStages (st :: rest) i found
            = (i : Int) :: scanKeyStages rest (i + 1) (l :: found) := by
          simp only [scanKeyStages, hl]
          rw [if_pos hsel]
        rw [h0]
        simp only [if_true]
        rw [List.filter_map, hpred, List.map_cons, List.map_map, hls,
          ih (i + 1) (l :: found)]
        rw [show ((i + 0 : Nat) : Int) = (i : Int) by norm_num]
        congr 1
        apply List.map_congr_left
        intro k _
        simp only [Function.comp, Nat.succ_eq_add_one]
        push_cast
        ring
      · have hsel' : (!(l == "") && keyRounds.contains l && !(found.contains l)) = false :=
          Bool.eq_false_iff.mpr hsel
        have h0 : firstKeyIn (st :: rest) found 0 = false := by
          simp only [firstKeyIn, labelAt_cons_zero, hl, List.range_zero,
            List.all_nil, Bool.and_true]
          exact hsel'
        have hpred : (firstKeyIn (st :: rest) found ∘ Nat.succ)
            = firstKeyIn rest found := by
          funext k
          exact firstKeyIn_cons_unselected st rest found l hl hsel' k
        have hls : scanKeyStages (st :: rest) i found
            = scanKeyStages rest (i + 1) found := by
          simp only [scanKeyStages, hl]
          rw [if_neg (by rw [hsel']; exact Bool.false_ne_true)]
        rw [h0]
        simp only [Bool.false_eq_true, if_false]
        rw [List.filter_map, hpred, List.map_map, hls, ih (i + 1) found]
        apply List.map_congr_left
        intro k _
        simp only [Function.comp, Nat.succ_eq_add_one]
        push_cast
        ring

/-- Canonical labels are nonempty, so the source's truthiness check is
redundant for selection. -/
theorem keyRounds_mem_ne_empty (l : String) (h : keyRounds.contains l = true) :
    (l == "") = false := by
  have hm : l ∈ keyRounds := by simpa using h
  fin_cases hm <;> decide

theorem firstKeyIn_nil_found (stages : List TrackerStage) (k : Nat) :
    firstKeyIn stages [] k = isFirstKeyOccurrence stages k := by
  unfold firstKeyIn isFirstKeyOccurrence
  cases hx : labelAt stages k with
  | none => rfl
  | some l =>
    dsimp only
    by_cases hk : keyRounds.contains l = true
    · rw [keyRounds_mem_ne_empty l hk, hk]
      simp
    · have hm : l ∉ keyRounds := by simpa using Bool.eq_false_iff.mpr hk
      simp [hm]

/-- The scanning loop, started fresh, selects exactly the first-occurrence
indices of the canonical labels. -/
theorem scan_eq_spec (stages : List TrackerStage) :
    scanKeyStages stages 0 [] = keyStageSpecScan stages := by
  rw [scan_eq_filter stages 0 []]
  unfold keyStageSpecScan
  rw [List.filter_congr (fun k _ => firstKeyIn_nil_found stages k)]
  congr 1
  funext k
  norm_num

/-- `findKeyProgressionStages` agrees with the claim's selector: the first
occurrence of each canonical label in scan order, with the final stage
index appended when it is not already the last selected index. -/
theorem findKeyProgressionStages_eq_spec (stages : List TrackerStage) :
    findKeyProgressionStages stages = keyStageSpecSelector stages := by
  unfold findKeyProgressionStages keyStageSpecSelector
  rw [scan_eq_spec]
  by_cases h : (keyStageSpecScan stages).getLast? = some ((stages.length : Int) - 1)
  · rw [if_pos h]
    have hne : (keyStageSpecScan stages).isEmpty = false := by
      cases hs : keyStageSpecScan stages with
      | nil => rw [hs] at h; simp at h
      | cons a as => rfl
    have hbeq : ((keyStageSpecScan stages).getLast?
        == some ((stages.length : Int) - 1)) = true := by
      rw [h]
      simp
    rw [hne, hbeq]
    simp
  · rw [if_neg h]
    have hbeq : ((keyStageSpecScan stages).getLast?
        == some ((stages.length : Int) - 1)) = false := by
      rw [Bool.eq_false_iff]
      intro hc
      exact h (beq_iff_eq.mp hc)
    rw [hbeq]
    simp

/-- In a strictly ascending list, an upper bound that is a member is the
last element. -/
theorem getLast?_eq_of_max {l : List Int} (hp : l.Pairwise (· < ·)) {x : Int}
    (hx : x ∈ l) (hmax : ∀ y ∈ l, y ≤ x) : l.getLast? = some x := by
  induction l with
  | nil => cases hx
  | cons a as ih =>
    cases as with
    | nil =>
      have : x = a := by simpa using hx
      simp [this]
    | cons b bs =>
      rw [show (a :: b :: bs).getLast? = (b :: bs).getLast? from rfl]
      have hab : a < b := (List.pairwise_cons.mp hp).1 b (by simp)
      have hp' := (List.pairwise_cons.mp hp).2
      rcases List.mem_cons.mp hx with h1 | hx'
      · exfalso
        have := hmax b (by simp)
        omega
      · exact ih hp' hx' (fun y hy => hmax y (List.mem_cons_of_mem a hy))

theorem keyStageSpecScan_pairwise (stages : List TrackerStage) :
    (keyStageSpecScan stages).Pairwise (· < ·) := by
  unfold keyStageSpecScan
  rw [List.pairwise_map]
  exact ((List.pairwise_lt_range stages.length).sublist
    (List.filter_sublist _)).imp (fun h => by exact_mod_cast h)

theorem keyStageSpecScan_bound (stages : List TrackerStage) :
    ∀ x ∈ keyStageSpecScan stages, x ≤ (stages.length : Int) - 1 := by
  unfold keyStageSpecScan
  intro x hx
  obtain ⟨k, hk, rfl⟩ := List.mem_map.mp hx
  have hkr : k ∈ List.range stages.length := (List.mem_filter.mp hk).1
  have hlt : k < stages.length := List.mem_range.mp hkr
  omega

/-- The selection is strictly ascending (hence deduplicated). -/
theorem findKeyProgressionStages_pairwise (stages : List TrackerStage) :
    (findKeyProgressionStages stages).Pairwise (· < ·) := by
  rw [findKeyProgressionStages_eq_spec]
  unfold keyStageSpecSelector
  by_cases h : (keyStageSpecScan stages).getLast? = some ((stages.length : Int) - 1)
  · rw [if_pos h]
    exact keyStageSpecScan_pairwise stages
  · rw [if_neg h]
    rw [List.pairwise_append]
    refine ⟨keyStageSpecScan_pairwise stages, List.pairwise_singleton _ _, ?_⟩
    intro a ha b hb
    have hb' : b = (stages.length : Int) - 1 := by simpa using hb
    subst hb'
    have hle := keyStageSpecScan_bound stages a ha
    rcases lt_or_eq_of_le hle with hlt | heq
    · exact hlt
    · exfalso
      exact h (getLast?_eq_of_max (keyStageSpecScan_pairwise stages)
        (heq ▸ ha) (fun y hy => heq ▸ keyStageSpecScan_bound stages y hy))

/-- Claim C3: `findKeyProgressionStages` selects exactly the index of the
first occurrence of each of `"2-1"`, `"3-2"`, `"4-2"`, `"5-1"`, `"6-1"` in
scan order (repeats ignored, each label at most once), appending the final
stage index when it is not already the last selected index; the result is
strictly ascending (hence deduplicated).  On the label sequence
`["1-1","2-1","2-1","3-2","4-2","5-1","6-1","6-2"]` it yields the indices
of the first `2-1`, `3-2`, `4-2`, `5-1`, `6-1` plus the final index:
`[1, 3, 4, 5, 6, 7]`. -/
theorem key_stage_selection :
    (∀ stages : List TrackerStage,
      findKeyProgressionStages stages = keyStageSpecSelector stages ∧
      (findKeyProgressionStages stages).Pairwise (· < ·) ∧
      (findKeyProgressionStages stages).Nodup) ∧
    findKeyProgressionStages
      (["1-1", "2-1", "2-1", "3-2", "4-2", "5-1", "6-1", "6-2"].map labeledStage)
      = [1, 3, 4, 5, 6, 7] := by
  refine ⟨fun stages => ⟨findKeyProgressionStages_eq_spec stages,
    findKeyProgressionStages_pairwise stages,
    (findKeyProgressionStages_pairwise stages).imp (fun h => ne_of_lt h)⟩, by decide⟩

end Tracker
